import Mathlib

/-!
Verification of the BLE session manager (`BluetoothManager` in `src/main.cpp`)
against its natural-language specification.

The D-Bus layer is shallowly embedded: a bus object catalog is an association
list from object paths to interface maps (the iteration order of the
`std::map` the source stores them in), a `sdbus::Variant` is the inductive
`Value` covering the typed payloads the source extracts, and the outcome of
each remote call (which in the source either returns or throws
`sdbus::Error`) is an explicit `Option String` / `Except String` oracle
argument.  Session state (`devices`, `connectedDevice`, `characteristics`)
is the structure `BTState`; each member function of `BluetoothManager`
becomes a pure function from its oracle, its arguments and the state to the
updated state together with its observable outcome.
-/

/-- Typed payload of a `sdbus::Variant`, restricted to the shapes the
source ever extracts (`get<std::string>`, `get<bool>`,
`get<std::vector<std::string>>`, `get<std::vector<uint8_t>>`). -/
inductive Value where
  | vstr (s : String)
  | vbool (b : Bool)
  | vstrs (l : List String)
  | vbytes (l : List Nat)
deriving DecidableEq

/-- Property map of one interface: `std::map<std::string, sdbus::Variant>`. -/
abbrev PropMap := List (String × Value)

/-- Interface map of one object: interface name to its properties. -/
abbrev InterfaceMap := List (String × PropMap)

/-- A bus object catalog as returned by `GetManagedObjects`, in the
iteration order of the `std::map` keyed by object path. -/
abbrev Catalog := List (String × InterfaceMap)

/-- The `devices` member: device path to its `org.bluez.Device1` properties. -/
abbrev DeviceMap := List (String × PropMap)

/-- The `characteristics` member: UUID to characteristic object path. -/
abbrev CharMap := List (String × String)

def ADAPTER_INTERFACE : String := "org.bluez.Adapter1"

def DEVICE_INTERFACE : String := "org.bluez.Device1"

def GATT_CHAR_INTERFACE : String := "org.bluez.GattCharacteristic1"

/-- Insert-or-assign on a key-sorted association list: the behaviour of
`std::map::operator[]` followed by assignment. -/
def mapInsert (k : String) (v : α) : List (String × α) → List (String × α)
  | [] => [(k, v)]
  | (k', v') :: rest =>
    if k < k' then (k, v) :: (k', v') :: rest
    else if k = k' then (k, v) :: rest
    else (k', v') :: mapInsert k v rest

/-- Erase-by-key: the behaviour of `std::map::erase(key)`. -/
def mapErase (k : String) (m : List (String × α)) : List (String × α) :=
  m.filter (fun e => e.1 != k)

/-- `BluetoothManager::findAdapter`: linear scan of the catalog for the
first object exposing `org.bluez.Adapter1`; `.ok` carries the adapter path
assigned to `adapterPath`, `.error` is the thrown
`std::runtime_error("No Bluetooth adapter found")`. -/
def findAdapter : Catalog → Except String String
  | [] => .error "No Bluetooth adapter found"
  | (path, interfaces) :: rest =>
    if (interfaces.lookup ADAPTER_INTERFACE).isSome then .ok path
    else findAdapter rest

/-- `BluetoothManager::updateDeviceList` applied to an already-fetched
catalog: for every object exposing `org.bluez.Device1`, assign
`devices[path] = interfaces.at(DEVICE_INTERFACE)`.  Note the source never
clears `devices` here. -/
def updateDeviceList (objects : Catalog) (devices : DeviceMap) : DeviceMap :=
  match objects with
  | [] => devices
  | (path, interfaces) :: rest =>
    match interfaces.lookup DEVICE_INTERFACE with
    | some props => updateDeviceList rest (mapInsert path props devices)
    | none => updateDeviceList rest devices

/-- The `org.bluez.Device1` properties the catalog assigns to path `p`,
taking the last catalog entry for `p` when several occur (later
assignments to `devices[p]` overwrite earlier ones). -/
def lastDevProps (objects : Catalog) (p : String) : Option PropMap :=
  match objects with
  | [] => none
  | e :: rest =>
    match lastDevProps rest p with
    | some props => some props
    | none => if e.1 = p then e.2.lookup DEVICE_INTERFACE else none

/-- Whether `needle` occurs at the head of `hay`. -/
def leadsChars : List Char → List Char → Bool
  | [], _ => true
  | _ :: _, [] => false
  | a :: as, b :: bs => a == b && leadsChars as bs

/-- Whether `needle` occurs contiguously anywhere in `hay`. -/
def hasSubChars (needle : List Char) : List Char → Bool
  | [] => leadsChars needle []
  | c :: rest => leadsChars needle (c :: rest) || hasSubChars needle rest

/-- `hay.find(needle) != std::string::npos`: substring containment. -/
def strContains (hay needle : String) : Bool :=
  hasSubChars needle.data hay.data

/-- One line of `BluetoothManager::listDevices` output: the fields the
source extracts (with defaults) for a device it prints. -/
structure DeviceInfo where
  name : String
  address : String
  path : String
  uuids : List String
deriving DecidableEq

/-- Field extraction of `listDevices` for one device: present `Name` /
`Address` / `UUIDs` properties are read out of their variants, absent ones
default to `"Unknown"` / `"Unknown"` / the empty list.  A present property
of the wrong variant type would throw in the source; theorems about
`listDevices` therefore carry a `propsWellTyped` hypothesis excluding that
case rather than modelling the throw. -/
def extractDevice (path : String) (props : PropMap) : DeviceInfo :=
  { name := match props.lookup "Name" with
      | some (Value.vstr s) => s
      | _ => "Unknown"
    address := match props.lookup "Address" with
      | some (Value.vstr s) => s
      | _ => "Unknown"
    path := path
    uuids := match props.lookup "UUIDs" with
      | some (Value.vstrs l) => l
      | _ => [] }

/-- The filter test of `listDevices`: some advertised UUID contains
`filterService` as a substring. -/
def matchesFilter (filterService : String) (info : DeviceInfo) : Bool :=
  info.uuids.any (fun uuid => strContains uuid filterService)

/-- The `Name` / `Address` / `UUIDs` properties, when present, carry the
variant type the source extracts (otherwise `variant.get<T>` would throw). -/
def propsWellTyped (props : PropMap) : Bool :=
  (match props.lookup "Name" with
    | some (Value.vstr _) => true
    | none => true
    | _ => false) &&
  (match props.lookup "Address" with
    | some (Value.vstr _) => true
    | none => true
    | _ => false) &&
  (match props.lookup "UUIDs" with
    | some (Value.vstrs _) => true
    | none => true
    | _ => false)

/-- `BluetoothManager::listDevices`: iterate the device map in order,
skip a device exactly when a filter is given and none of its UUIDs
contains it, and return the printed records in print order. -/
def listDevices (devices : DeviceMap) (filterService : String) : List DeviceInfo :=
  match devices with
  | [] => []
  | (path, props) :: rest =>
    let info := extractDevice path props
    if filterService ≠ "" ∧ matchesFilter filterService info = false then
      listDevices rest filterService
    else
      info :: listDevices rest filterService

/-- The mutable session state of `BluetoothManager`: the `devices`,
`connectedDevice` and `characteristics` members. -/
structure BTState where
  devices : DeviceMap
  connectedDevice : String
  characteristics : CharMap
deriving DecidableEq

/-- State after the constructor: all three members empty. -/
def initialState : BTState := ⟨[], "", []⟩

/-- The characteristic-map entry `discoverServices` derives from one
catalog object: when the object path contains the device path as a
substring and the object exposes `org.bluez.GattCharacteristic1` with a
string `UUID` property, the pair `(UUID, path)`. -/
def charEntry? (devicePath : String) (e : String × InterfaceMap) :
    Option (String × String) :=
  if strContains e.1 devicePath then
    match e.2.lookup GATT_CHAR_INTERFACE with
    | some charProps =>
      match charProps.lookup "UUID" with
      | some (Value.vstr uuid) => some (uuid, e.1)
      | _ => none
    | none => none
  else none

/-- A catalog object on which `discoverServices` would throw: it passes the
path and interface tests but its `UUID` property is present with a
non-string variant, so `get<std::string>` fails. -/
def uuidBad (devicePath : String) (e : String × InterfaceMap) : Bool :=
  strContains e.1 devicePath &&
    (match e.2.lookup GATT_CHAR_INTERFACE with
     | some charProps =>
       match charProps.lookup "UUID" with
       | some (Value.vstr _) => false
       | some _ => true
       | none => false
     | none => false)

/-- The loop of `BluetoothManager::discoverServices` over the fetched
catalog, starting from the already-cleared map `acc`; the second component
is the error thrown mid-loop on an ill-typed `UUID` variant (in which case
the first component is the partial map built so far, as the source mutates
`characteristics` in place). -/
def discoverLoop (devicePath : String) : Catalog → CharMap → CharMap × Option String
  | [], acc => (acc, none)
  | (path, interfaces) :: rest, acc =>
    if strContains path devicePath then
      match interfaces.lookup GATT_CHAR_INTERFACE with
      | some charProps =>
        match charProps.lookup "UUID" with
        | some (Value.vstr uuid) => discoverLoop devicePath rest (mapInsert uuid path acc)
        | some _ => (acc, some "variant type mismatch")
        | none => discoverLoop devicePath rest acc
      | none => discoverLoop devicePath rest acc
    else discoverLoop devicePath rest acc

/-- The characteristic path the catalog associates to UUID `u` under
device path `devicePath`, taking the last qualifying entry when several
share the UUID (later insertions overwrite earlier ones). -/
def lastChar (devicePath : String) (objects : Catalog) (u : String) : Option String :=
  match objects with
  | [] => none
  | e :: rest =>
    match lastChar devicePath rest u with
    | some q => some q
    | none =>
      match charEntry? devicePath e with
      | some r => if r.1 = u then some r.2 else none
      | none => none

/-- `BluetoothManager::discoverServices`: fetch the catalog (`fetch` is the
outcome of `GetManagedObjects`), clear `characteristics`, and fill it from
every qualifying object; the second component is the error a thrown
`sdbus::Error` propagates to the caller (on a fetch error the map is left
untouched, as the source clears it only after the fetch returns). -/
def discoverServices (fetch : Except String Catalog) (devicePath : String)
    (s : BTState) : BTState × Option String :=
  match fetch with
  | .error e => (s, some e)
  | .ok objects =>
    let r := discoverLoop devicePath objects []
    ({ s with characteristics := r.1 }, r.2)

/-- Outcomes of the three remote interactions `connectToDevice` performs:
the `Connect` call (`none` = returned, `some e` = threw), the
`Properties.Get("Connected")` read, and the `GetManagedObjects` fetch
inside `discoverServices`.  `requestMTU` performs no remote call and
catches its own errors, so it has no oracle. -/
structure ConnectOracle where
  connectCall : Option String
  connectedRead : Except String Bool
  catalogFetch : Except String Catalog

/-- `BluetoothManager::connectToDevice`: issue `Connect`, re-read the
`Connected` property, and only on a `true` read record the device path and
run service discovery; every `sdbus::Error` is caught and turns into a
`false` return (with whatever state mutations already happened kept). -/
def connectToDevice (o : ConnectOracle) (devicePath : String) (s : BTState) :
    Bool × BTState :=
  match o.connectCall with
  | some _ => (false, s)
  | none =>
    match o.connectedRead with
    | .error _ => (false, s)
    | .ok connected =>
      if connected then
        let s1 := { s with connectedDevice := devicePath }
        let r := discoverServices o.catalogFetch devicePath s1
        match r.2 with
        | none => (true, r.1)
        | some _ => (false, r.1)
      else (false, s)

/-- `BluetoothManager::disconnectFromDevice`: no-op when nothing is
connected; otherwise issue `Disconnect` (`remoteErr` its outcome) and only
when it returns clear the marker and the characteristic map — a thrown
`sdbus::Error` is caught after the clears are skipped. -/
def disconnectFromDevice (remoteErr : Option String) (s : BTState) : BTState :=
  if s.connectedDevice = "" then s
  else
    match remoteErr with
    | none => { s with connectedDevice := "", characteristics := [] }
    | some _ => s

/-- `BluetoothManager::forgetDevice`: disconnect first when `devicePath`
is the connected device (`discErr` the disconnect call's outcome), then
issue `RemoveDevice` (`removeErr` its outcome) and erase the path from the
device map only when it returns — a thrown error skips the erase. -/
def forgetDevice (discErr removeErr : Option String) (devicePath : String)
    (s : BTState) : BTState :=
  let s1 := if s.connectedDevice = devicePath then disconnectFromDevice discErr s else s
  match removeErr with
  | none => { s1 with devices := mapErase devicePath s1.devices }
  | some _ => s1

/-- `BluetoothManager::scanDevices`: clear the device map, run discovery
for the duration, then refresh via `updateDeviceList` (`fetch` the outcome
of its `GetManagedObjects`); on a fetch error the exception propagates
with the map already cleared. -/
def scanDevices (fetch : Except String Catalog) (s : BTState) : BTState × Option String :=
  let s1 := { s with devices := [] }
  match fetch with
  | .error e => (s1, some e)
  | .ok objects => ({ s1 with devices := updateDeviceList objects s1.devices }, none)

/-- `BluetoothManager::stopDiscovery`: issue `StopDiscovery` and return the
console output; the `catch` block swallows every `sdbus::Error` and prints
nothing, so an error produces no output at all. -/
def stopDiscovery (remoteErr : Option String) : List String :=
  match remoteErr with
  | none => ["Discovery stopped."]
  | some _ => []

/-- A remote call one of the characteristic I/O operations issues. -/
inductive RemoteCall where
  | readValue (path : String)
  | writeValue (path : String) (data : List Nat)
  | startNotify (path : String)
  | stopNotify (path : String)
deriving DecidableEq

/-- Observable outcome of a characteristic I/O operation: the
"Characteristic not found." early return, success, or a caught remote
error. -/
inductive OpOutcome where
  | notFound
  | ok
  | remoteError (e : String)
deriving DecidableEq

/-- `BluetoothManager::readCharacteristic`: look the UUID up in the
characteristic map, returning early when absent; otherwise issue
`ReadValue` (`remote` its outcome).  The session state is never mutated;
the returned list records the remote calls issued. -/
def readCharacteristic (remote : Except String (List Nat)) (uuid : String)
    (s : BTState) : OpOutcome × BTState × List RemoteCall :=
  match s.characteristics.lookup uuid with
  | none => (.notFound, s, [])
  | some path =>
    match remote with
    | .ok _ => (.ok, s, [.readValue path])
    | .error e => (.remoteError e, s, [.readValue path])

/-- `BluetoothManager::writeCharacteristic`: lookup-or-fail, then issue
`WriteValue` with the data. -/
def writeCharacteristic (remote : Option String) (uuid : String) (data : List Nat)
    (s : BTState) : OpOutcome × BTState × List RemoteCall :=
  match s.characteristics.lookup uuid with
  | none => (.notFound, s, [])
  | some path =>
    match remote with
    | none => (.ok, s, [.writeValue path data])
    | some e => (.remoteError e, s, [.writeValue path data])

/-- `BluetoothManager::enableNotify`: lookup-or-fail, then register the
signal handler and issue `StartNotify`. -/
def enableNotify (remote : Option String) (uuid : String) (s : BTState) :
    OpOutcome × BTState × List RemoteCall :=
  match s.characteristics.lookup uuid with
  | none => (.notFound, s, [])
  | some path =>
    match remote with
    | none => (.ok, s, [.startNotify path])
    | some e => (.remoteError e, s, [.startNotify path])

/-- `BluetoothManager::disableNotify`: lookup-or-fail, then issue
`StopNotify`. -/
def disableNotify (remote : Option String) (uuid : String) (s : BTState) :
    OpOutcome × BTState × List RemoteCall :=
  match s.characteristics.lookup uuid with
  | none => (.notFound, s, [])
  | some path =>
    match remote with
    | none => (.ok, s, [.stopNotify path])
    | some e => (.remoteError e, s, [.stopNotify path])

/-- One session operation, with every remote outcome quantified.  The
`connect` step requires a nonempty device path: a D-Bus object path always
begins with a slash, and on an invalid path the bus rejects the `Connect`
call (so the `Connected` read can never report `true` for it), which this
side condition encodes. -/
inductive Step : BTState → BTState → Prop where
  | scan (fetch : Except String Catalog) (s : BTState) :
      Step s (scanDevices fetch s).1
  | refresh (objects : Catalog) (s : BTState) :
      Step s { s with devices := updateDeviceList objects s.devices }
  | connect (o : ConnectOracle) (p : String) (s : BTState) (hp : p ≠ "") :
      Step s (connectToDevice o p s).2
  | disconnect (e : Option String) (s : BTState) :
      Step s (disconnectFromDevice e s)
  | forget (d r : Option String) (p : String) (s : BTState) :
      Step s (forgetDevice d r p s)
  | readC (remote : Except String (List Nat)) (u : String) (s : BTState) :
      Step s (readCharacteristic remote u s).2.1
  | writeC (remote : Option String) (u : String) (dat : List Nat) (s : BTState) :
      Step s (writeCharacteristic remote u dat s).2.1
  | enable (remote : Option String) (u : String) (s : BTState) :
      Step s (enableNotify remote u s).2.1
  | disable (remote : Option String) (u : String) (s : BTState) :
      Step s (disableNotify remote u s).2.1

/-- States reachable from the freshly constructed manager. -/
def Reachable (s : BTState) : Prop :=
  Relation.ReflTransGen Step initialState s

/-- The session invariant of the spec: a nonempty characteristic map
implies a connected device. -/
def CharInvariant (s : BTState) : Prop :=
  s.characteristics ≠ [] → s.connectedDevice ≠ ""

theorem lookup_mapInsert (k : String) (v : α) (m : List (String × α)) (k' : String) :
    (mapInsert k v m).lookup k' = if k' = k then some v else m.lookup k' := by
  induction m with
  | nil =>
    by_cases h : k' = k
    · simp [mapInsert, List.lookup, h]
    · simp [mapInsert, List.lookup, h, beq_eq_false_iff_ne.mpr h]
  | cons e rest ih =>
    obtain ⟨k₁, v₁⟩ := e
    by_cases h1 : k < k₁
    · by_cases h : k' = k
      · simp [mapInsert, List.lookup, h1, h]
      · simp [mapInsert, List.lookup, h1, h, beq_eq_false_iff_ne.mpr h]
    · by_cases h2 : k = k₁
      · subst h2
        by_cases h : k' = k
        · simp [mapInsert, List.lookup, h1, h]
        · simp [mapInsert, List.lookup, h1, h, beq_eq_false_iff_ne.mpr h]
      · by_cases h : k' = k₁
        · subst h
          have hne : k' ≠ k := fun hh => h2 hh.symm
          simp [mapInsert, List.lookup, h1, h2, hne, beq_eq_false_iff_ne.mpr hne]
        · simp [mapInsert, List.lookup, h1, h2, h, beq_eq_false_iff_ne.mpr h, ih]

theorem lookup_mapErase (k : String) (m : List (String × α)) :
    (mapErase k m).lookup k = none := by
  induction m with
  | nil => simp [mapErase]
  | cons e rest ih =>
    obtain ⟨k₁, v₁⟩ := e
    by_cases h : k₁ = k
    · have hb : (k₁ != k) = false := by simp [h]
      simpa [mapErase, hb] using ih
    · have hb : (k₁ != k) = true := bne_iff_ne.mpr h
      have hk : k ≠ k₁ := fun hh => h hh.symm
      simp only [mapErase, List.filter] at ih ⊢
      simp [hb, List.lookup, beq_eq_false_iff_ne.mpr hk, ih]

theorem disconnect_devices_eq (d : Option String) (s : BTState) :
    (disconnectFromDevice d s).devices = s.devices := by
  unfold disconnectFromDevice
  split
  · rfl
  · cases d <;> rfl

/-- C1 (amended): `updateDeviceList` merges the catalog's devices into the
existing map instead of replacing it — the looked-up entry for a path is
the catalog's device properties when the catalog has them, and otherwise
whatever the map held before (so stale paths persist).  Full replace holds
only for `scanDevices`, which clears the map before refreshing. -/
theorem updateDeviceList_merges (objects : Catalog) (devices : DeviceMap) (p : String) :
    (updateDeviceList objects devices).lookup p =
      match lastDevProps objects p with
      | some props => some props
      | none => devices.lookup p := by
  induction objects generalizing devices with
  | nil => simp [updateDeviceList, lastDevProps]
  | cons e rest ih =>
    obtain ⟨path, interfaces⟩ := e
    cases hl : interfaces.lookup DEVICE_INTERFACE with
    | some props =>
      simp only [updateDeviceList, hl]
      rw [ih]
      cases hld : lastDevProps rest p with
      | some pr => simp [lastDevProps, hld]
      | none =>
        simp only [lastDevProps, hld]
        rw [lookup_mapInsert]
        by_cases hp : p = path
        · subst hp
          simp [hl]
        · have hp' : path ≠ p := fun hh => hp hh.symm
          simp [hp, hp']
    | none =>
      simp only [updateDeviceList, hl]
      rw [ih]
      cases hld : lastDevProps rest p with
      | some pr => simp [lastDevProps, hld]
      | none =>
        simp only [lastDevProps, hld]
        by_cases hp : path = p
        · simp [hp, hl]
        · simp [hp]

/-- C1 (counterexample): a device path present in the map before a refresh
and absent from the new catalog (here the empty catalog) still appears in
the map, and in the `listDevices` output, after the refresh. -/
theorem refresh_stale_path_persists :
    (updateDeviceList [] [("/org/bluez/hci0/dev_STALE", [])]).lookup
        "/org/bluez/hci0/dev_STALE" = some [] ∧
    (listDevices (updateDeviceList [] [("/org/bluez/hci0/dev_STALE", [])]) "").map
        DeviceInfo.path = ["/org/bluez/hci0/dev_STALE"] := by
  refine ⟨rfl, ?_⟩
  simp [updateDeviceList, listDevices, extractDevice]

/-- C5: `findAdapter` returns the path of the first catalog entry (in
catalog order) exposing `org.bluez.Adapter1`, and fails with the
no-adapter error exactly when no entry exposes it. -/
theorem findAdapter_first (C : Catalog) :
    (∀ p, findAdapter C = .ok p ↔
      ∃ l₁ ifs l₂, C = l₁ ++ (p, ifs) :: l₂ ∧
        (ifs.lookup ADAPTER_INTERFACE).isSome = true ∧
        ∀ e ∈ l₁, e.2.lookup ADAPTER_INTERFACE = none) ∧
    (findAdapter C = .error "No Bluetooth adapter found" ↔
      ∀ e ∈ C, e.2.lookup ADAPTER_INTERFACE = none) := by
  induction C with
  | nil =>
    constructor
    · intro p
      constructor
      · intro h
        simp [findAdapter] at h
      · rintro ⟨l₁, ifs, l₂, hC, -, -⟩
        exact absurd hC (by cases l₁ <;> simp)
    · simp [findAdapter]
  | cons e rest ih =>
    obtain ⟨q, ifs₀⟩ := e
    by_cases h : (ifs₀.lookup ADAPTER_INTERFACE).isSome = true
    · constructor
      · intro p
        constructor
        · intro hok
          have hqp : q = p := by
            simpa [findAdapter, h] using hok
          subst hqp
          exact ⟨[], ifs₀, rest, rfl, h, by simp⟩
        · rintro ⟨l₁, ifs, l₂, hC, hifs, hnone⟩
          cases l₁ with
          | nil =>
            obtain ⟨h1, h2⟩ := List.cons_eq_cons.mp hC
            injection h1 with hqp hifseq
            subst hqp
            simp [findAdapter, h]
          | cons e' l₁' =>
            obtain ⟨h1, h2⟩ := List.cons_eq_cons.mp hC
            have hmem : e' ∈ e' :: l₁' := by simp
            have := hnone e' hmem
            rw [← h1] at this
            rw [this] at h
            simp at h
      · constructor
        · intro he
          simp [findAdapter, h] at he
        · intro hall
          have := hall (q, ifs₀) (by simp)
          rw [this] at h
          simp at h
    · have hq : ifs₀.lookup ADAPTER_INTERFACE = none := by
        cases hh : ifs₀.lookup ADAPTER_INTERFACE with
        | some v => rw [hh] at h; simp at h
        | none => rfl
      have hstep : findAdapter ((q, ifs₀) :: rest) = findAdapter rest := by
        simp [findAdapter, h]
      constructor
      · intro p
        rw [hstep, (ih.1 p)]
        constructor
        · rintro ⟨l₁, ifs, l₂, hC, hifs, hnone⟩
          refine ⟨(q, ifs₀) :: l₁, ifs, l₂, by simp [hC], hifs, ?_⟩
          intro e' he'
          rcases List.mem_cons.mp he' with rfl | he''
          · exact hq
          · exact hnone e' he''
        · rintro ⟨l₁, ifs, l₂, hC, hifs, hnone⟩
          cases l₁ with
          | nil =>
            obtain ⟨h1, h2⟩ := List.cons_eq_cons.mp hC
            injection h1 with hqp hifseq
            rw [← hifseq] at hifs
            exact absurd hifs h
          | cons e' l₁' =>
            obtain ⟨h1, h2⟩ := List.cons_eq_cons.mp hC
            refine ⟨l₁', ifs, l₂, h2, hifs, ?_⟩
            intro e'' he''
            exact hnone e'' (List.mem_cons_of_mem _ he'')
      · rw [hstep, ih.2]
        constructor
        · intro hall e' he'
          rcases List.mem_cons.mp he' with rfl | he''
          · exact hq
          · exact hall e' he''
        · intro hall e' he'
          exact hall e' (List.mem_cons_of_mem _ he')

/-- C2 (amended): when a device is connected, `disconnectFromDevice`
clears the connected-device marker and the characteristic map exactly when
the remote `Disconnect` call returns; when the call signals any error —
including the one an already-disconnected device raises — the error is
surfaced and the session state is left entirely unchanged. -/
theorem disconnect_clears_iff_remote_ok (s : BTState) (h : s.connectedDevice ≠ "") :
    disconnectFromDevice none s =
      { s with connectedDevice := "", characteristics := [] } ∧
    ∀ e, disconnectFromDevice (some e) s = s := by
  constructor
  · simp [disconnectFromDevice, h]
  · intro e
    simp [disconnectFromDevice, h]

theorem disconnect_clears_iff_remote_ok_witness :
    ((⟨[], "/org/bluez/hci0/dev_AA", [("2a37", "/c")]⟩ : BTState).connectedDevice ≠ "") ∧
    (disconnectFromDevice none ⟨[], "/org/bluez/hci0/dev_AA", [("2a37", "/c")]⟩ =
        ⟨[], "", []⟩ ∧
      ∀ e, disconnectFromDevice (some e)
          ⟨[], "/org/bluez/hci0/dev_AA", [("2a37", "/c")]⟩ =
        ⟨[], "/org/bluez/hci0/dev_AA", [("2a37", "/c")]⟩) :=
  ⟨by decide, disconnect_clears_iff_remote_ok _ (by decide)⟩

/-- C2 (counterexample): with a device connected and the remote
`Disconnect` call signalling the already-disconnected error, neither the
connected-device marker nor the characteristic map is emptied. -/
theorem disconnect_remote_error_keeps_session :
    ((⟨[], "/org/bluez/hci0/dev_AA", [("2a37", "/c")]⟩ : BTState).connectedDevice ≠ "") ∧
    (disconnectFromDevice (some "org.bluez.Error.NotConnected")
        ⟨[], "/org/bluez/hci0/dev_AA", [("2a37", "/c")]⟩).connectedDevice ≠ "" ∧
    (disconnectFromDevice (some "org.bluez.Error.NotConnected")
        ⟨[], "/org/bluez/hci0/dev_AA", [("2a37", "/c")]⟩).characteristics ≠ [] := by
  refine ⟨?_, ?_, ?_⟩ <;> decide

/-- C7 (amended): `stopDiscovery` swallows every failure of the remote
`StopDiscovery` call — whatever error the call raises, nothing is reported
(no output is produced), while a successful stop reports normally. -/
theorem stopDiscovery_swallows_every_error :
    (∀ e, stopDiscovery (some e) = []) ∧
    stopDiscovery none = ["Discovery stopped."] :=
  ⟨fun _ => rfl, rfl⟩

/-- C7 (counterexample): a stop failure unrelated to an already-stopped
scan — here a remote-call timeout — is also swallowed: no report reaches
the caller. -/
theorem stopDiscovery_unrelated_error_unreported :
    stopDiscovery (some "org.freedesktop.DBus.Error.NoReply") = [] := rfl

/-- C10: when the remote `RemoveDevice` call errs, `forgetDevice` leaves
the device registry unchanged; the path is evicted exactly when the call
succeeds; and the disconnect performed beforehand for the connected device
is not rolled back by a removal error. -/
theorem forget_evicts_only_on_remove_success (d : Option String) (e : String)
    (p : String) (s : BTState) :
    (forgetDevice d (some e) p s).devices = s.devices ∧
    (forgetDevice d none p s).devices = mapErase p s.devices ∧
    (forgetDevice d none p s).devices.lookup p = none ∧
    (s.connectedDevice = p → d = none →
      (forgetDevice d (some e) p s).connectedDevice = "") := by
  refine ⟨?_, ?_, ?_, ?_⟩
  · unfold forgetDevice
    split <;> simp [disconnect_devices_eq]
  · unfold forgetDevice
    split <;> simp [disconnect_devices_eq]
  · unfold forgetDevice
    split <;> simp [disconnect_devices_eq, lookup_mapErase]
  · intro hc hd
    subst hd
    by_cases hz : s.connectedDevice = ""
    · have hp : p = "" := hc ▸ hz
      simp [forgetDevice, hc, disconnectFromDevice, hz, hp]
    · have hp : p ≠ "" := fun hh => hz (hc.trans hh)
      simp [forgetDevice, hc, disconnectFromDevice, hz, hp]

theorem forget_evicts_only_on_remove_success_witness :
    (forgetDevice none (some "org.bluez.Error.Failed") "/org/bluez/hci0/dev_AA"
        ⟨[("/org/bluez/hci0/dev_AA", [])], "/org/bluez/hci0/dev_AA", []⟩).devices =
      [("/org/bluez/hci0/dev_AA", [])] :=
  (forget_evicts_only_on_remove_success none "org.bluez.Error.Failed"
    "/org/bluez/hci0/dev_AA" ⟨[("/org/bluez/hci0/dev_AA", [])], "/org/bluez/hci0/dev_AA", []⟩).1

/-- C3 (amended): `connectToDevice` sets the connected-device marker only
when the post-call `Connected` read returns `true`; when the `Connect`
call errs or the read errs or returns `false`, it returns failure with the
session state unchanged; but when the read returns `true` and the
subsequent service-discovery catalog fetch errs, it returns failure with
the marker already set to the device path (the marker change is not rolled
back). -/
theorem connect_failure_state (o : ConnectOracle) (devicePath : String) (s : BTState) :
    (o.connectCall ≠ none ∨ o.connectedRead ≠ .ok true →
      connectToDevice o devicePath s = (false, s)) ∧
    (∀ e, o.connectCall = none → o.connectedRead = .ok true →
      o.catalogFetch = .error e →
      connectToDevice o devicePath s =
        (false, { s with connectedDevice := devicePath })) ∧
    ((connectToDevice o devicePath s).2.connectedDevice ≠ s.connectedDevice →
      o.connectedRead = .ok true ∧
      (connectToDevice o devicePath s).2.connectedDevice = devicePath) := by
  refine ⟨?_, ?_, ?_⟩
  · intro h
    cases hcc : o.connectCall with
    | some e => simp [connectToDevice, hcc]
    | none =>
      cases hcr : o.connectedRead with
      | error e => simp [connectToDevice, hcc, hcr]
      | ok b =>
        cases b with
        | false => simp [connectToDevice, hcc, hcr]
        | true =>
          rcases h with h1 | h2
          · exact absurd hcc h1
          · exact absurd hcr h2
  · intro e h1 h2 h3
    simp [connectToDevice, h1, h2, h3, discoverServices]
  · intro h
    cases hcc : o.connectCall with
    | some e =>
      exact absurd (by simp [connectToDevice, hcc]) h
    | none =>
      cases hcr : o.connectedRead with
      | error e =>
        exact absurd (by simp [connectToDevice, hcc, hcr]) h
      | ok b =>
        cases b with
        | false =>
          exact absurd (by simp [connectToDevice, hcc, hcr]) h
        | true =>
          refine ⟨rfl, ?_⟩
          cases hcf : o.catalogFetch with
          | error e =>
            simp [connectToDevice, hcc, hcr, hcf, discoverServices]
          | ok C =>
            cases hdl : (discoverLoop devicePath C []).2 with
            | none => simp [connectToDevice, hcc, hcr, hcf, discoverServices, hdl]
            | some e' => simp [connectToDevice, hcc, hcr, hcf, discoverServices, hdl]

theorem connect_failure_state_witness :
    connectToDevice ⟨none, .ok false, .ok []⟩ "/org/bluez/hci0/dev_AA" initialState =
      (false, initialState) :=
  (connect_failure_state ⟨none, .ok false, .ok []⟩ "/org/bluez/hci0/dev_AA"
    initialState).1 (Or.inr (by simp))

/-- C3 (counterexample): with the `Connect` call and the `Connected` read
succeeding (read `true`) but the discovery catalog fetch raising an error,
`connectToDevice` returns failure yet the session state differs from its
value before the call — the connected-device marker is left set. -/
theorem connect_discovery_error_changes_state :
    (connectToDevice ⟨none, .ok true, .error "org.freedesktop.DBus.Error.NoReply"⟩
        "/org/bluez/hci0/dev_AA" initialState).1 = false ∧
    (connectToDevice ⟨none, .ok true, .error "org.freedesktop.DBus.Error.NoReply"⟩
        "/org/bluez/hci0/dev_AA" initialState).2 ≠ initialState ∧
    (connectToDevice ⟨none, .ok true, .error "org.freedesktop.DBus.Error.NoReply"⟩
        "/org/bluez/hci0/dev_AA" initialState).2.connectedDevice =
      "/org/bluez/hci0/dev_AA" := by
  refine ⟨rfl, ?_, rfl⟩
  decide

/-- C6: each of the four characteristic operations, called on a UUID
absent from the characteristic map, reports not-found, leaves the session
state unchanged, and issues no remote call at all — whatever outcome the
remote oracle would have produced. -/
theorem char_ops_not_found_no_call (s : BTState) (uuid : String)
    (r : Except String (List Nat)) (w en dis : Option String) (dat : List Nat)
    (h : s.characteristics.lookup uuid = none) :
    readCharacteristic r uuid s = (.notFound, s, []) ∧
    writeCharacteristic w uuid dat s = (.notFound, s, []) ∧
    enableNotify en uuid s = (.notFound, s, []) ∧
    disableNotify dis uuid s = (.notFound, s, []) := by
  refine ⟨?_, ?_, ?_, ?_⟩ <;>
    simp [readCharacteristic, writeCharacteristic, enableNotify, disableNotify, h]

theorem char_ops_not_found_no_call_witness :
    initialState.characteristics.lookup "2a37" = none ∧
    (readCharacteristic (.ok []) "2a37" initialState = (.notFound, initialState, []) ∧
     writeCharacteristic none "2a37" [1, 2] initialState = (.notFound, initialState, []) ∧
     enableNotify none "2a37" initialState = (.notFound, initialState, []) ∧
     disableNotify none "2a37" initialState = (.notFound, initialState, [])) :=
  ⟨rfl, char_ops_not_found_no_call initialState "2a37" (.ok []) none none none [1, 2] rfl⟩

theorem discoverLoop_step (p : String) (e : String × InterfaceMap) (rest : Catalog)
    (acc : CharMap) (hGood : uuidBad p e = false) :
    discoverLoop p (e :: rest) acc =
      discoverLoop p rest
        (match charEntry? p e with
         | some r => mapInsert r.1 r.2 acc
         | none => acc) := by
  obtain ⟨path, interfaces⟩ := e
  cases hcs : strContains path p with
  | false => simp [discoverLoop, charEntry?, hcs]
  | true =>
    cases hl : interfaces.lookup GATT_CHAR_INTERFACE with
    | none => simp [discoverLoop, charEntry?, hcs, hl]
    | some charProps =>
      cases hu : charProps.lookup "UUID" with
      | none => simp [discoverLoop, charEntry?, hcs, hl, hu]
      | some v =>
        cases v with
        | vstr u => simp [discoverLoop, charEntry?, hcs, hl, hu]
        | vbool b => simp [uuidBad, hcs, hl, hu] at hGood
        | vstrs l => simp [uuidBad, hcs, hl, hu] at hGood
        | vbytes l => simp [uuidBad, hcs, hl, hu] at hGood

theorem discoverLoop_lookup (p : String) (C : Catalog) :
    ∀ acc, (∀ e ∈ C, uuidBad p e = false) →
      (discoverLoop p C acc).2 = none ∧
      ∀ u, (discoverLoop p C acc).1.lookup u =
        match lastChar p C u with
        | some q => some q
        | none => acc.lookup u := by
  induction C with
  | nil =>
    intro acc h
    simp [discoverLoop, lastChar]
  | cons e rest ih =>
    intro acc hGood
    have hGe : uuidBad p e = false := hGood e (List.mem_cons_self _ _)
    have hGrest : ∀ e' ∈ rest, uuidBad p e' = false :=
      fun e' he' => hGood e' (List.mem_cons_of_mem _ he')
    rw [discoverLoop_step p e rest acc hGe]
    cases hce : charEntry? p e with
    | none =>
      obtain ⟨h1, h2⟩ := ih acc hGrest
      refine ⟨h1, fun u => ?_⟩
      rw [h2 u]
      cases hlc : lastChar p rest u with
      | some q => simp [lastChar, hlc]
      | none => simp [lastChar, hlc, hce]
    | some r =>
      obtain ⟨h1, h2⟩ := ih (mapInsert r.1 r.2 acc) hGrest
      refine ⟨h1, fun u => ?_⟩
      rw [h2 u]
      cases hlc : lastChar p rest u with
      | some q => simp [lastChar, hlc]
      | none =>
        simp only [lastChar, hlc, hce]
        rw [lookup_mapInsert]
        by_cases hu : r.1 = u
        · simp [hu]
        · have hu' : u ≠ r.1 := fun hh => hu hh.symm
          simp [hu, hu']

theorem pairwise_keys_unique {l : List (String × String)}
    (hD : l.Pairwise (fun a b => a.1 ≠ b.1)) {u q q' : String}
    (h1 : (u, q) ∈ l) (h2 : (u, q') ∈ l) : q = q' := by
  induction l with
  | nil => cases h1
  | cons e rest ih =>
    rw [List.pairwise_cons] at hD
    obtain ⟨hhead, htail⟩ := hD
    rcases List.mem_cons.mp h1 with rfl | h1'
    · rcases List.mem_cons.mp h2 with heq | h2'
      · exact (congrArg Prod.snd heq).symm
      · exact absurd rfl (hhead (u, q') h2')
    · rcases List.mem_cons.mp h2 with rfl | h2'
      · exact absurd rfl (hhead (u, q) h1')
      · exact ih htail h1' h2'

theorem lastChar_iff (p : String) : ∀ C : Catalog,
    (C.filterMap (charEntry? p)).Pairwise (fun a b => a.1 ≠ b.1) →
    ∀ u q : String,
      (lastChar p C u = some q ↔ (u, q) ∈ C.filterMap (charEntry? p)) := by
  intro C
  induction C with
  | nil =>
    intro hDist u q
    simp [lastChar]
  | cons e rest ih =>
    intro hDist u q
    cases hce : charEntry? p e with
    | none =>
      have hfc : (e :: rest).filterMap (charEntry? p) =
          rest.filterMap (charEntry? p) := by
        simp [List.filterMap_cons, hce]
      rw [hfc] at hDist ⊢
      simp only [lastChar, hce]
      cases hlc : lastChar p rest u with
      | some q' =>
        constructor
        · intro h
          injection h with h
          exact h ▸ (ih hDist u q').mp hlc
        · intro hmem
          have := (ih hDist u q).mpr hmem
          rw [hlc] at this
          exact this
      | none =>
        constructor
        · intro h
          cases h
        · intro hmem
          have := (ih hDist u q).mpr hmem
          rw [hlc] at this
          cases this
    | some r =>
      have hfc : (e :: rest).filterMap (charEntry? p) =
          r :: rest.filterMap (charEntry? p) := by
        simp [List.filterMap_cons, hce]
      rw [hfc] at hDist ⊢
      rw [List.pairwise_cons] at hDist
      obtain ⟨hr, hD'⟩ := hDist
      simp only [lastChar, hce]
      cases hlc : lastChar p rest u with
      | some q' =>
        constructor
        · intro h
          injection h with h
          exact h ▸ List.mem_cons_of_mem _ ((ih hD' u q').mp hlc)
        · intro hmem
          rcases List.mem_cons.mp hmem with heq | hmem'
          · have hmem1 : (u, q') ∈ rest.filterMap (charEntry? p) := (ih hD' u q').mp hlc
            have hne : r.1 ≠ u := hr _ hmem1
            have : r.1 = u := by rw [← heq]
            exact absurd this hne
          · have h1 : (u, q') ∈ rest.filterMap (charEntry? p) := (ih hD' u q').mp hlc
            have : q = q' := pairwise_keys_unique hD' hmem' h1
            rw [this]
      | none =>
        by_cases hru : r.1 = u
        · rw [if_pos hru]
          constructor
          · intro h
            injection h with h
            have hreq : r = (u, q) := by
              rw [← hru, ← h]
            rw [← hreq]
            exact List.mem_cons_self _ _
          · intro hmem
            rcases List.mem_cons.mp hmem with heq | hmem'
            · exact congrArg some (congrArg Prod.snd heq.symm)
            · have := (ih hD' u q).mpr hmem'
              rw [hlc] at this
              cases this
        · rw [if_neg hru]
          constructor
          · intro h
            cases h
          · intro hmem
            rcases List.mem_cons.mp hmem with heq | hmem'
            · exact absurd (congrArg Prod.fst heq).symm hru
            · have := (ih hD' u q).mpr hmem'
              rw [hlc] at this
              cases this

/-- C4: after a successful `connectToDevice` over catalog `C` (the
`Connect` call returns, the `Connected` read yields `true`, the discovery
fetch yields `C`, every qualifying object carries a well-typed `UUID`
variant, and — as the spec assumes — the qualifying UUIDs are pairwise
distinct), the characteristic map holds `UUID -> path` exactly for the
catalog objects whose path contains the device path as a substring and
which expose `org.bluez.GattCharacteristic1` with a `UUID` property, with
no entry of the prior map surviving. -/
theorem connect_discovery_exact_chars (o : ConnectOracle) (devicePath : String)
    (s : BTState) (C : Catalog)
    (hcall : o.connectCall = none)
    (hread : o.connectedRead = .ok true)
    (hfetch : o.catalogFetch = .ok C)
    (hGood : ∀ e ∈ C, uuidBad devicePath e = false)
    (hDist : (C.filterMap (charEntry? devicePath)).Pairwise (fun a b => a.1 ≠ b.1)) :
    (connectToDevice o devicePath s).1 = true ∧
    ∀ u q, ((connectToDevice o devicePath s).2.characteristics.lookup u = some q ↔
      (u, q) ∈ C.filterMap (charEntry? devicePath)) := by
  obtain ⟨hnone, hlook⟩ := discoverLoop_lookup devicePath C [] hGood
  have hcd : connectToDevice o devicePath s =
      (true, { s with connectedDevice := devicePath,
                      characteristics := (discoverLoop devicePath C []).1 }) := by
    simp [connectToDevice, hcall, hread, discoverServices, hfetch, hnone]
  rw [hcd]
  refine ⟨rfl, fun u q => ?_⟩
  show (discoverLoop devicePath C []).1.lookup u = some q ↔ _
  rw [hlook u]
  cases hlc : lastChar devicePath C u with
  | some q' =>
    have hmem := (lastChar_iff devicePath C hDist u q').mp hlc
    constructor
    · intro h
      injection h with h
      exact h ▸ hmem
    · intro hm
      exact congrArg some (pairwise_keys_unique hDist hmem hm)
  | none =>
    constructor
    · intro h
      simp [List.lookup] at h
    · intro hm
      have := (lastChar_iff devicePath C hDist u q).mpr hm
      rw [hlc] at this
      cases this

theorem connect_discovery_exact_chars_witness :
    ((connectToDevice
        ⟨none, .ok true, .ok [("/org/bluez/hci0/dev_AA_BB/service0/char0",
          [(GATT_CHAR_INTERFACE, [("UUID", Value.vstr "2a37")])])]⟩
        "/org/bluez/hci0/dev_AA_BB" ⟨[], "", [("old-uuid", "/old/path")]⟩).1 = true) ∧
    ((connectToDevice
        ⟨none, .ok true, .ok [("/org/bluez/hci0/dev_AA_BB/service0/char0",
          [(GATT_CHAR_INTERFACE, [("UUID", Value.vstr "2a37")])])]⟩
        "/org/bluez/hci0/dev_AA_BB"
        ⟨[], "", [("old-uuid", "/old/path")]⟩).2.characteristics.lookup "2a37" =
          some "/org/bluez/hci0/dev_AA_BB/service0/char0" ↔
      ("2a37", "/org/bluez/hci0/dev_AA_BB/service0/char0") ∈
        ([("/org/bluez/hci0/dev_AA_BB/service0/char0",
          [(GATT_CHAR_INTERFACE, [("UUID", Value.vstr "2a37")])])] : Catalog).filterMap
          (charEntry? "/org/bluez/hci0/dev_AA_BB")) := by
  have h := connect_discovery_exact_chars
    ⟨none, .ok true, .ok [("/org/bluez/hci0/dev_AA_BB/service0/char0",
      [(GATT_CHAR_INTERFACE, [("UUID", Value.vstr "2a37")])])]⟩
    "/org/bluez/hci0/dev_AA_BB" ⟨[], "", [("old-uuid", "/old/path")]⟩
    [("/org/bluez/hci0/dev_AA_BB/service0/char0",
      [(GATT_CHAR_INTERFACE, [("UUID", Value.vstr "2a37")])])]
    rfl rfl rfl (by decide) (by decide)
  exact ⟨h.1, h.2 "2a37" "/org/bluez/hci0/dev_AA_BB/service0/char0"⟩

theorem listDevices_sublist (d : DeviceMap) (f : String) :
    List.Sublist (listDevices d f) (listDevices d "") := by
  induction d with
  | nil => simp [listDevices]
  | cons e rest ih =>
    obtain ⟨path, props⟩ := e
    simp only [listDevices]
    have h0 : ¬(("" : String) ≠ "" ∧
        matchesFilter "" (extractDevice path props) = false) :=
      fun h => h.1 rfl
    rw [if_neg h0]
    by_cases hc : f ≠ "" ∧ matchesFilter f (extractDevice path props) = false
    · rw [if_pos hc]
      exact List.Sublist.cons _ ih
    · rw [if_neg hc]
      exact List.Sublist.cons₂ _ ih

theorem listDevices_mem_iff (d : DeviceMap) (f : String) (hf : f ≠ "")
    (info : DeviceInfo) :
    info ∈ listDevices d f ↔
      info ∈ listDevices d "" ∧ matchesFilter f info = true := by
  induction d with
  | nil => simp [listDevices]
  | cons e rest ih =>
    obtain ⟨path, props⟩ := e
    simp only [listDevices]
    have h0 : ¬(("" : String) ≠ "" ∧
        matchesFilter "" (extractDevice path props) = false) :=
      fun h => h.1 rfl
    rw [if_neg h0]
    by_cases hm : matchesFilter f (extractDevice path props) = false
    · rw [if_pos ⟨hf, hm⟩]
      rw [ih]
      constructor
      · rintro ⟨h1, h2⟩
        exact ⟨List.mem_cons_of_mem _ h1, h2⟩
      · rintro ⟨h1, h2⟩
        rcases List.mem_cons.mp h1 with rfl | h1'
        · rw [hm] at h2
          cases h2
        · exact ⟨h1', h2⟩
    · have hm' : matchesFilter f (extractDevice path props) = true := by
        cases hmm : matchesFilter f (extractDevice path props) with
        | false => exact absurd hmm hm
        | true => rfl
      rw [if_neg (fun h => hm h.2)]
      constructor
      · intro h1
        rcases List.mem_cons.mp h1 with rfl | h1'
        · exact ⟨List.mem_cons_self _ _, hm'⟩
        · obtain ⟨ha, hb⟩ := ih.mp h1'
          exact ⟨List.mem_cons_of_mem _ ha, hb⟩
      · rintro ⟨h1, h2⟩
        rcases List.mem_cons.mp h1 with rfl | h1'
        · exact List.mem_cons_self _ _
        · exact List.mem_cons_of_mem _ (ih.mpr ⟨h1', h2⟩)

theorem mem_listDevices_exists_entry (d : DeviceMap) (f : String) (info : DeviceInfo)
    (h : info ∈ listDevices d f) : ∃ e ∈ d, info = extractDevice e.1 e.2 := by
  induction d with
  | nil => simp [listDevices] at h
  | cons e rest ih =>
    obtain ⟨path, props⟩ := e
    simp only [listDevices] at h
    by_cases hc : f ≠ "" ∧ matchesFilter f (extractDevice path props) = false
    · rw [if_pos hc] at h
      obtain ⟨e', he', heq⟩ := ih h
      exact ⟨e', List.mem_cons_of_mem _ he', heq⟩
    · rw [if_neg hc] at h
      rcases List.mem_cons.mp h with rfl | h'
      · exact ⟨(path, props), List.mem_cons_self _ _, rfl⟩
      · obtain ⟨e', he', heq⟩ := ih h'
        exact ⟨e', List.mem_cons_of_mem _ he', heq⟩

theorem listDevices_paths_pairwise (d : DeviceMap) (f : String)
    (hSorted : d.Pairwise (fun a b => a.1 < b.1)) :
    (listDevices d f).Pairwise (fun a b => a.path < b.path) := by
  induction d with
  | nil => simp [listDevices]
  | cons e rest ih =>
    obtain ⟨path, props⟩ := e
    rw [List.pairwise_cons] at hSorted
    obtain ⟨hhead, htail⟩ := hSorted
    simp only [listDevices]
    by_cases hc : f ≠ "" ∧ matchesFilter f (extractDevice path props) = false
    · rw [if_pos hc]
      exact ih htail
    · rw [if_neg hc]
      rw [List.pairwise_cons]
      refine ⟨?_, ih htail⟩
      intro b hb
      obtain ⟨e', he', heq⟩ := mem_listDevices_exists_entry rest f b hb
      have hpp : (extractDevice path props).path = path := rfl
      have hbp : b.path = e'.1 := by
        rw [heq]
        rfl
      rw [hpp, hbp]
      exact hhead e' he'

/-- C8: for any device map and nonempty filter (over well-typed device
properties), the filtered `listDevices` output is a sublist of the
unfiltered one; a record appears in the filtered output exactly when it
appears unfiltered and one of its advertised UUIDs contains the filter as
a substring; the output respects path order when the map is path-sorted;
and missing `Name` / `Address` / `UUIDs` properties default to
`"Unknown"` / `"Unknown"` / the empty list instead of erroring. -/
theorem listDevices_filter_spec (d : DeviceMap) (f : String)
    (hf : f ≠ "")
    (_hWT : ∀ e ∈ d, propsWellTyped e.2 = true)
    (hSorted : d.Pairwise (fun a b => a.1 < b.1)) :
    List.Sublist (listDevices d f) (listDevices d "") ∧
    (∀ info, info ∈ listDevices d f ↔
      info ∈ listDevices d "" ∧ ∃ u ∈ info.uuids, strContains u f = true) ∧
    (listDevices d f).Pairwise (fun a b => a.path < b.path) ∧
    (∀ e ∈ d,
      (e.2.lookup "Name" = none → (extractDevice e.1 e.2).name = "Unknown") ∧
      (e.2.lookup "Address" = none → (extractDevice e.1 e.2).address = "Unknown") ∧
      (e.2.lookup "UUIDs" = none → (extractDevice e.1 e.2).uuids = [])) := by
  refine ⟨listDevices_sublist d f, ?_, listDevices_paths_pairwise d f hSorted, ?_⟩
  · intro info
    rw [listDevices_mem_iff d f hf info]
    constructor
    · rintro ⟨h1, h2⟩
      refine ⟨h1, ?_⟩
      simpa [matchesFilter, List.any_eq_true] using h2
    · rintro ⟨h1, h2⟩
      refine ⟨h1, ?_⟩
      simpa [matchesFilter, List.any_eq_true] using h2
  · intro e he
    refine ⟨?_, ?_, ?_⟩ <;> intro hn <;> simp [extractDevice, hn]

theorem listDevices_filter_spec_witness :
    (("180d" : String) ≠ "" ∧
     (∀ e ∈ ([("/org/bluez/hci0/dev_AA_BB",
        [("Name", Value.vstr "Sensor"),
         ("UUIDs", Value.vstrs ["0000180d-0000-1000-8000-00805f9b34fb"])])] : DeviceMap),
       propsWellTyped e.2 = true) ∧
     ([("/org/bluez/hci0/dev_AA_BB",
        [("Name", Value.vstr "Sensor"),
         ("UUIDs", Value.vstrs ["0000180d-0000-1000-8000-00805f9b34fb"])])] : DeviceMap).Pairwise
       (fun a b => a.1 < b.1)) ∧
    List.Sublist
      (listDevices [("/org/bluez/hci0/dev_AA_BB",
        [("Name", Value.vstr "Sensor"),
         ("UUIDs", Value.vstrs ["0000180d-0000-1000-8000-00805f9b34fb"])])] "180d")
      (listDevices [("/org/bluez/hci0/dev_AA_BB",
        [("Name", Value.vstr "Sensor"),
         ("UUIDs", Value.vstrs ["0000180d-0000-1000-8000-00805f9b34fb"])])] "") := by
  refine ⟨⟨by decide, by decide, by decide⟩, ?_⟩
  exact (listDevices_filter_spec _ "180d" (by decide) (by decide) (by decide)).1

theorem connect_state_cases (o : ConnectOracle) (p : String) (s : BTState) :
    (connectToDevice o p s).2 = s ∨
    (connectToDevice o p s).2.connectedDevice = p := by
  cases hcc : o.connectCall with
  | some e =>
    left
    simp [connectToDevice, hcc]
  | none =>
    cases hcr : o.connectedRead with
    | error e =>
      left
      simp [connectToDevice, hcc, hcr]
    | ok b =>
      cases b with
      | false =>
        left
        simp [connectToDevice, hcc, hcr]
      | true =>
        right
        cases hcf : o.catalogFetch with
        | error e =>
          simp [connectToDevice, hcc, hcr, hcf, discoverServices]
        | ok C =>
          cases hdl : (discoverLoop p C []).2 with
          | none => simp [connectToDevice, hcc, hcr, hcf, discoverServices, hdl]
          | some e' => simp [connectToDevice, hcc, hcr, hcf, discoverServices, hdl]

theorem disconnect_state_cases (e : Option String) (s : BTState) :
    disconnectFromDevice e s = s ∨
    disconnectFromDevice e s =
      { s with connectedDevice := "", characteristics := [] } := by
  unfold disconnectFromDevice
  split
  · exact Or.inl rfl
  · cases e with
    | none => exact Or.inr rfl
    | some e' => exact Or.inl rfl

theorem forget_session_cases (d r : Option String) (p : String) (s : BTState) :
    ((forgetDevice d r p s).connectedDevice = s.connectedDevice ∧
     (forgetDevice d r p s).characteristics = s.characteristics) ∨
    (forgetDevice d r p s).characteristics = [] := by
  by_cases hc : s.connectedDevice = p
  · rcases disconnect_state_cases d s with heq | heq
    · cases r with
      | none =>
        left
        constructor <;> simp [forgetDevice, hc, heq]
      | some e =>
        left
        constructor <;> simp [forgetDevice, hc, heq]
    · cases r with
      | none =>
        right
        simp [forgetDevice, hc, heq]
      | some e =>
        right
        simp [forgetDevice, hc, heq]
  · cases r with
    | none =>
      left
      constructor <;> simp [forgetDevice, hc]
    | some e =>
      left
      constructor <;> simp [forgetDevice, hc]

theorem readCharacteristic_state (r : Except String (List Nat)) (u : String)
    (s : BTState) : (readCharacteristic r u s).2.1 = s := by
  cases hl : s.characteristics.lookup u with
  | none => simp [readCharacteristic, hl]
  | some path =>
    cases r with
    | ok v => simp [readCharacteristic, hl]
    | error e => simp [readCharacteristic, hl]

theorem writeCharacteristic_state (r : Option String) (u : String) (dat : List Nat)
    (s : BTState) : (writeCharacteristic r u dat s).2.1 = s := by
  cases hl : s.characteristics.lookup u with
  | none => simp [writeCharacteristic, hl]
  | some path =>
    cases r with
    | none => simp [writeCharacteristic, hl]
    | some e => simp [writeCharacteristic, hl]

theorem enableNotify_state (r : Option String) (u : String) (s : BTState) :
    (enableNotify r u s).2.1 = s := by
  cases hl : s.characteristics.lookup u with
  | none => simp [enableNotify, hl]
  | some path =>
    cases r with
    | none => simp [enableNotify, hl]
    | some e => simp [enableNotify, hl]

theorem disableNotify_state (r : Option String) (u : String) (s : BTState) :
    (disableNotify r u s).2.1 = s := by
  cases hl : s.characteristics.lookup u with
  | none => simp [disableNotify, hl]
  | some path =>
    cases r with
    | none => simp [disableNotify, hl]
    | some e => simp [disableNotify, hl]

theorem step_preserves_invariant (s s' : BTState) (hstep : Step s s')
    (hinv : CharInvariant s) : CharInvariant s' := by
  cases hstep with
  | scan fetch s =>
    cases fetch with
    | error e => exact fun h => hinv h
    | ok C => exact fun h => hinv h
  | refresh C s => exact fun h => hinv h
  | connect o p s hp =>
    rcases connect_state_cases o p s with heq | hm
    · rw [heq]
      exact hinv
    · intro h
      rw [hm]
      exact hp
  | disconnect e s =>
    rcases disconnect_state_cases e s with heq | heq
    · rw [heq]
      exact hinv
    · intro h
      rw [heq] at h
      exact absurd rfl h
  | forget d r p s =>
    rcases forget_session_cases d r p s with ⟨h1, h2⟩ | h2
    · intro h
      rw [h2] at h
      rw [h1]
      exact hinv h
    · intro h
      rw [h2] at h
      exact absurd rfl h
  | readC r u s =>
    rw [readCharacteristic_state]
    exact hinv
  | writeC r u dat s =>
    rw [writeCharacteristic_state]
    exact hinv
  | enable r u s =>
    rw [enableNotify_state]
    exact hinv
  | disable r u s =>
    rw [disableNotify_state]
    exact hinv

/-- C9: every state reachable from the freshly constructed manager by any
sequence of session operations — scan, refresh, connect (with its
discovery pass), disconnect, forget, and the four characteristic I/O
operations, under every remote-call outcome — satisfies the invariant
that a nonempty characteristic map implies a nonempty connected-device
marker. -/
theorem reachable_char_invariant (s : BTState) (h : Reachable s) :
    CharInvariant s := by
  induction h with
  | refl => exact fun hne => absurd rfl hne
  | tail hab hbc ih => exact step_preserves_invariant _ _ hbc ih

theorem reachable_char_invariant_witness :
    Reachable initialState ∧ CharInvariant initialState :=
  ⟨Relation.ReflTransGen.refl,
   reachable_char_invariant initialState Relation.ReflTransGen.refl⟩
